import Mathlib

/-!
Verification of the flight-tracking admin server (`index.ts`, `src/utils.ts`)
against its natural-language specification.  The TypeScript code is shallowly
embedded: pure helpers become Lean functions, the MongoDB `flights` collection
becomes a `List FlightMetadata`, the single polling interval becomes a
`Bool` flag, and WebSocket broadcasts become explicit event lists returned by
each operation.  Timestamps are modelled as natural numbers (epoch
milliseconds of the ISO-8601 strings used by the feed).
-/

namespace AdminServer

/-- The canonical standardized flight status values
(`standardizeFlightStatus`'s return type in `src/utils.ts`). -/
inductive Status where
  | scheduled
  | taxiing
  | active
  | completed
  | unknown
deriving DecidableEq

/-- Characters stripped by JavaScript `String.prototype.trim` (the common
ASCII whitespace; the feed statuses only ever contain spaces). -/
def isJsSpace (c : Char) : Bool :=
  c = ' ' || c = '\t' || c = '\n' || c = '\r'

/-- `trim` on a character list: drop whitespace from both ends, as
JavaScript `trim()` does. -/
def trimChars (l : List Char) : List Char :=
  ((l.dropWhile isJsSpace).reverse.dropWhile isJsSpace).reverse

/-- JavaScript `s.trim().toLowerCase()` (applied in that order in
`standardizeFlightStatus`). -/
def jsTrimLower (s : String) : String :=
  String.mk ((trimChars s.data).map Char.toLower)

/-- JavaScript `String.prototype.split("/")` on the character level:
splits at every `'/'`, keeping empty pieces. -/
def splitSlashAux : List Char → List Char → List String
  | [], acc => [String.mk acc.reverse]
  | c :: cs, acc =>
    if c = '/' then String.mk acc.reverse :: splitSlashAux cs []
    else splitSlashAux cs (c :: acc)

/-- `status.split("/")` from `standardizeFlightStatus`. -/
def splitSlash (s : String) : List String :=
  splitSlashAux s.data []

/-- The fixed phrase table of `standardizeFlightStatus` (`src/utils.ts`),
in source order. -/
def statusMap : List (String × Status) :=
  [("arrived", Status.completed),
   ("landed", Status.completed),
   ("completed", Status.completed),
   ("en route", Status.active),
   ("in-air", Status.active),
   ("in air", Status.active),
   ("departed", Status.active),
   ("takeoff", Status.active),
   ("taxi", Status.taxiing),
   ("taxiing", Status.taxiing),
   ("scheduled", Status.scheduled),
   ("not departed", Status.scheduled)]

/-- `status.split("/")[0]?.trim().toLowerCase() || status.trim().toLowerCase()`:
the prefix before the separator, trimmed and lower-cased, falling back to the
whole (trimmed, lower-cased) string when that prefix is falsy (empty). -/
def primaryStatus (s : String) : String :=
  let p :=
    match splitSlash s with
    | [] => jsTrimLower s
    | first :: _ => jsTrimLower first
  if p = "" then jsTrimLower s else p

/-- `standardizeFlightStatus` from `src/utils.ts`.  `none` models a
`null`/`undefined` input; the empty string is falsy in JavaScript, so both
take the `if (!status) return "unknown"` early exit. -/
def standardizeFlightStatus (status : Option String) : Status :=
  match status with
  | none => Status.unknown
  | some s =>
    if s = "" then Status.unknown
    else
      match List.lookup (primaryStatus s) statusMap with
      | some v => v
      | none => Status.unknown

/-- A successful lookup in an association list returns one of the stored
values. -/
theorem mem_snd_of_lookup {α β : Type} [BEq α] {l : List (α × β)} {a : α}
    {b : β} (h : List.lookup a l = some b) : b ∈ l.map Prod.snd := by
  induction l with
  | nil => simp [List.lookup] at h
  | cons hd tl ih =>
    rcases hd with ⟨k, v⟩
    rw [List.lookup] at h
    by_cases hk : (a == k) = true
    · simp [hk] at h
      simp [h]
    · simp [eq_false_of_ne_true hk] at h
      simpa using Or.inr (ih h)

/-- C7: `standardizeFlightStatus` is total: every input (including
`null`/`undefined` modelled as `none`, and the empty string) yields one of
the five canonical values; absent input maps to `unknown`. -/
theorem standardizeFlightStatus_total (s : Option String) :
    standardizeFlightStatus s ∈
      [Status.scheduled, Status.taxiing, Status.active, Status.completed,
       Status.unknown]
    ∧ standardizeFlightStatus none = Status.unknown
    ∧ standardizeFlightStatus (some (String.mk [])) = Status.unknown := by
  refine ⟨?_, rfl, rfl⟩
  match s with
  | none => simp [standardizeFlightStatus]
  | some str =>
    by_cases hstr : str = ""
    · simp [standardizeFlightStatus, hstr]
    · rw [standardizeFlightStatus]
      simp only [hstr, if_false]
      cases hlk : List.lookup (primaryStatus str) statusMap with
      | none => simp
      | some v =>
        have hv := mem_snd_of_lookup hlk
        simp only [statusMap, List.map] at hv
        simp only [List.mem_cons, List.not_mem_nil, or_false] at hv
        rcases hv with h | h | h | h | h | h | h | h | h | h | h | h <;>
          subst h <;> simp

/-- An airport record as stored on a flight (`origin`/`destination` in
`FlightMetadata`): the fields the coordinator reads. -/
structure Airport where
  country_code : String
  latitude : ℚ
  longitude : ℚ
deriving DecidableEq

/-- One position sample (`FlightTrackObject` in `src/types.ts`): the fields
the coordinator reads.  `timestamp` is the epoch-millisecond value of the
feed's ISO-8601 timestamp (`new Date(t).getTime()`). -/
structure FlightTrackObject where
  timestamp : Nat
  latitude : ℚ
  longitude : ℚ
  altitude : Int
  groundspeed : ℚ
  heading : ℚ
deriving DecidableEq

/-- A stored journey record (`FlightMetadata` in `src/types.ts`), restricted
to the fields the tracking coordinator reads or writes. -/
structure FlightMetadata where
  fa_flight_id : String
  origin : Airport
  destination : Airport
  status : Option String
  standardized_status : Status
  is_tracking : Bool
  waypoints : List FlightTrackObject
  flightTrack : List FlightTrackObject
  actual_on : Option Nat
deriving DecidableEq

/-- JavaScript `Set.add` followed at the end by `Array.from`: a list kept
duplicate-free in insertion order. -/
def setAdd (s : List String) (c : String) : List String :=
  if c ∈ s then s else s ++ [c]

/-- The body of the `flights.forEach` loop in `getCountriesVisited`
(`src/utils.ts`): completed flights contribute origin and destination
country codes. -/
def countryStep (acc : List String) (f : FlightMetadata) : List String :=
  if f.standardized_status = Status.completed then
    setAdd (setAdd acc f.origin.country_code) f.destination.country_code
  else acc

/-- `getCountriesVisited` from `src/utils.ts`: empty input gives `[]`;
otherwise the set is seeded with the first flight's origin country and every
completed flight adds its origin and destination countries. -/
def getCountriesVisited : List FlightMetadata → List String
  | [] => []
  | f0 :: rest => (f0 :: rest).foldl countryStep [f0.origin.country_code]

theorem mem_setAdd {s : List String} {x c : String} :
    c ∈ setAdd s x ↔ c ∈ s ∨ c = x := by
  unfold setAdd
  by_cases hx : x ∈ s
  · simp only [hx, if_true]
    constructor
    · exact Or.inl
    · rintro (h | rfl)
      · exact h
      · exact hx
  · simp [hx]

theorem mem_foldl_countryStep (fs : List FlightMetadata) :
    ∀ (acc : List String) (c : String),
      c ∈ fs.foldl countryStep acc ↔
        c ∈ acc ∨ ∃ f, f ∈ fs ∧ f.standardized_status = Status.completed ∧
          (c = f.origin.country_code ∨ c = f.destination.country_code) := by
  induction fs with
  | nil => intro acc c; simp
  | cons f fs ih =>
    intro acc c
    rw [List.foldl_cons, ih]
    by_cases hf : f.standardized_status = Status.completed
    · simp only [countryStep, hf, if_true, mem_setAdd]
      constructor
      · rintro (((h | h) | h) | ⟨g, hg, hgc, hco⟩)
        · exact Or.inl h
        · exact Or.inr ⟨f, List.mem_cons_self f fs, hf, Or.inl h⟩
        · exact Or.inr ⟨f, List.mem_cons_self f fs, hf, Or.inr h⟩
        · exact Or.inr ⟨g, List.mem_cons_of_mem f hg, hgc, hco⟩
      · rintro (h | ⟨g, hg, hgc, hco⟩)
        · exact Or.inl (Or.inl (Or.inl h))
        · rcases List.mem_cons.mp hg with rfl | hg
          · rcases hco with h | h
            · exact Or.inl (Or.inl (Or.inr h))
            · exact Or.inl (Or.inr h)
          · exact Or.inr ⟨g, hg, hgc, hco⟩
    · simp only [countryStep, hf, if_false]
      constructor
      · rintro (h | ⟨g, hg, hgc, hco⟩)
        · exact Or.inl h
        · exact Or.inr ⟨g, List.mem_cons_of_mem f hg, hgc, hco⟩
      · rintro (h | ⟨g, hg, hgc, hco⟩)
        · exact Or.inl h
        · rcases List.mem_cons.mp hg with rfl | hg
          · exact absurd hgc hf
          · exact Or.inr ⟨g, hg, hgc, hco⟩

/-- C10: for a non-empty flight list, `getCountriesVisited` contains exactly
the origin country of the first flight plus the origin and destination
countries of the completed flights; for the empty list it returns `[]`. -/
theorem getCountriesVisited_spec (f0 : FlightMetadata)
    (rest : List FlightMetadata) (c : String) :
    (c ∈ getCountriesVisited (f0 :: rest) ↔
      c = f0.origin.country_code ∨
        ∃ f, f ∈ f0 :: rest ∧ f.standardized_status = Status.completed ∧
          (c = f.origin.country_code ∨ c = f.destination.country_code))
    ∧ getCountriesVisited [] = [] := by
  refine ⟨?_, rfl⟩
  rw [getCountriesVisited, mem_foldl_countryStep]
  simp

/-- A JavaScript number as produced by the progress computation: a finite
(here: rational) value, an infinity, or `NaN`.  Only division can leave the
finite range in `calculateProgressFromPositions`. -/
inductive JSNum where
  | fin (q : ℚ)
  | inf
  | ninf
  | nan
deriving DecidableEq

/-- JavaScript division of finite numbers: `x / 0` is `±Infinity` and
`0 / 0` is `NaN`. -/
def jsDiv (a b : ℚ) : JSNum :=
  if b = 0 then
    if a = 0 then JSNum.nan else if 0 < a then JSNum.inf else JSNum.ninf
  else JSNum.fin (a / b)

/-- Multiplication by the literal `100` in the source. -/
def jsMul100 : JSNum → JSNum
  | JSNum.fin q => JSNum.fin (q * 100)
  | JSNum.inf => JSNum.inf
  | JSNum.ninf => JSNum.ninf
  | JSNum.nan => JSNum.nan

/-- `Math.max(0, x)`: `NaN` propagates, `-Infinity` clamps to `0`. -/
def jsMax0 : JSNum → JSNum
  | JSNum.fin q => JSNum.fin (max 0 q)
  | JSNum.inf => JSNum.inf
  | JSNum.ninf => JSNum.fin 0
  | JSNum.nan => JSNum.nan

/-- `Math.min(100, x)`: `NaN` propagates, `Infinity` clamps to `100`. -/
def jsMin100 : JSNum → JSNum
  | JSNum.fin q => JSNum.fin (min 100 q)
  | JSNum.inf => JSNum.fin 100
  | JSNum.ninf => JSNum.ninf
  | JSNum.nan => JSNum.nan

/-- Rounding to 1 decimal place on the exact rationals. -/
def roundTo1 (q : ℚ) : ℚ :=
  ((round (q * 10) : ℤ) : ℚ) / 10

/-- `Number(progress.toFixed(1))`: finite values are rounded to one decimal;
`NaN` and the infinities survive the string round-trip unchanged. -/
def toFixed1 : JSNum → JSNum
  | JSNum.fin q => JSNum.fin (roundTo1 q)
  | JSNum.inf => JSNum.inf
  | JSNum.ninf => JSNum.ninf
  | JSNum.nan => JSNum.nan

/-- `calculateDistance` from `src/utils.ts`.  The two sentinel checks
(`(0,0)` meaning "no fix yet") are exact and embedded directly; the
haversine body is transcendental (`Math.sin`/`Math.cos`/`Math.atan2`), so it
is abstracted as the parameter `hav`, quantified over in every theorem. -/
def calculateDistance (hav : ℚ → ℚ → ℚ → ℚ → ℚ)
    (lat1 lon1 lat2 lon2 : ℚ) : ℚ :=
  if lat1 = 0 ∧ lon1 = 0 then 0
  else if lat2 = 0 ∧ lon2 = 0 then 0
  else hav lat1 lon1 lat2 lon2

/-- `calculateProgressFromPositions` from `src/utils.ts`:
`0` for a track of fewer than 2 samples, otherwise
`Number(Math.min(100, Math.max(0, traveled / total * 100)).toFixed(1))`.
`filedEte` is accepted and unused, as in the source. -/
def calculateProgressFromPositions (hav : ℚ → ℚ → ℚ → ℚ → ℚ)
    (flightTrack : List FlightTrackObject) (lastPosition : FlightTrackObject)
    (origin destination : Airport) (filedEte : ℚ) : JSNum :=
  if flightTrack.length < 2 then JSNum.fin 0
  else
    let totalDistance := calculateDistance hav origin.latitude
      origin.longitude destination.latitude destination.longitude
    let distanceTraveled := calculateDistance hav origin.latitude
      origin.longitude lastPosition.latitude lastPosition.longitude
    toFixed1 (jsMin100 (jsMax0 (jsMul100 (jsDiv distanceTraveled
      totalDistance))))

/-- A position sample with the given timestamp and neutral payload
(in-flight altitude so the landing sentinel does not trigger). -/
def mkSample (t : Nat) : FlightTrackObject :=
  { timestamp := t, latitude := 1, longitude := 1, altitude := 30000,
    groundspeed := 400, heading := 90 }

/-- An arbitrary stand-in for the haversine body, used at inputs where the
source never evaluates it (the sentinel shortcut applies). -/
def hav37 : ℚ → ℚ → ℚ → ℚ → ℚ := fun _ _ _ _ => 37

/-- Rounding on the rationals is monotone. -/
theorem round_mono_q {a b : ℚ} (h : a ≤ b) : round a ≤ round b := by
  rw [round_eq, round_eq]
  exact Int.floor_le_floor (by linarith)

/-- Whether a JS number is a finite value within `[0, 100]`. -/
def JSNum.inRange100 : JSNum → Bool
  | JSNum.fin q => decide (0 ≤ q ∧ q ≤ 100)
  | _ => false

/-- C6 counterexample — refutes C6 as stated: with the origin at the
`(0,0)` sentinel both distances are `0`, the JavaScript division `0 / 0`
yields `NaN`, and the result is `NaN`, which does not lie in `[0, 100]`. -/
theorem calculateProgress_nan_counterexample :
    calculateProgressFromPositions hav37 [mkSample 1, mkSample 2]
        (mkSample 2) { country_code := "AA", latitude := 0, longitude := 0 }
        { country_code := "BB", latitude := 50, longitude := 60 } 0
      = JSNum.nan
    ∧ JSNum.inRange100 (calculateProgressFromPositions hav37
        [mkSample 1, mkSample 2] (mkSample 2)
        { country_code := "AA", latitude := 0, longitude := 0 }
        { country_code := "BB", latitude := 50, longitude := 60 } 0)
      = false := by
  constructor <;> rfl

/-- C6, amended: the short-track case returns `0`; whenever the denominator
`distanceKm(origin, destination)` is nonzero, the result is the clamped,
1-decimal-rounded ratio and lies in `[0, 100]`. -/
theorem calculateProgress_spec (hav : ℚ → ℚ → ℚ → ℚ → ℚ)
    (track : List FlightTrackObject) (lastPosition : FlightTrackObject)
    (origin destination : Airport) (filedEte : ℚ)
    (hlen : 2 ≤ track.length)
    (htot : calculateDistance hav origin.latitude origin.longitude
      destination.latitude destination.longitude ≠ 0) :
    calculateProgressFromPositions hav track lastPosition origin destination
        filedEte
      = JSNum.fin (roundTo1 (min 100 (max 0
          (calculateDistance hav origin.latitude origin.longitude
              lastPosition.latitude lastPosition.longitude
            / calculateDistance hav origin.latitude origin.longitude
              destination.latitude destination.longitude * 100))))
    ∧ (∃ q, calculateProgressFromPositions hav track lastPosition origin
          destination filedEte = JSNum.fin q ∧ 0 ≤ q ∧ q ≤ 100)
    ∧ (∀ tr : List FlightTrackObject, tr.length < 2 →
        calculateProgressFromPositions hav tr lastPosition origin destination
          filedEte = JSNum.fin 0) := by
  have hnot : ¬ track.length < 2 := not_lt.mpr hlen
  have hmain : calculateProgressFromPositions hav track lastPosition origin
      destination filedEte
      = JSNum.fin (roundTo1 (min 100 (max 0
          (calculateDistance hav origin.latitude origin.longitude
              lastPosition.latitude lastPosition.longitude
            / calculateDistance hav origin.latitude origin.longitude
              destination.latitude destination.longitude * 100)))) := by
    simp only [calculateProgressFromPositions, jsDiv, if_neg hnot,
      if_neg htot]
    rfl
  refine ⟨hmain, ?_, ?_⟩
  · refine ⟨_, hmain, ?_, ?_⟩
    · have h0 : (0 : ℚ) ≤ min 100 (max 0
          (calculateDistance hav origin.latitude origin.longitude
              lastPosition.latitude lastPosition.longitude
            / calculateDistance hav origin.latitude origin.longitude
              destination.latitude destination.longitude * 100)) := by
        apply le_min (by norm_num) (le_max_left 0 _)
      have hr : (0 : ℤ) ≤ round ((min 100 (max 0
          (calculateDistance hav origin.latitude origin.longitude
              lastPosition.latitude lastPosition.longitude
            / calculateDistance hav origin.latitude origin.longitude
              destination.latitude destination.longitude * 100)) : ℚ) * 10) := by
        have := round_mono_q (mul_nonneg h0 (by norm_num : (0:ℚ) ≤ 10))
        simpa using this
      unfold roundTo1
      exact div_nonneg (by exact_mod_cast hr) (by norm_num)
    · have h100 : min 100 (max 0
          (calculateDistance hav origin.latitude origin.longitude
              lastPosition.latitude lastPosition.longitude
            / calculateDistance hav origin.latitude origin.longitude
              destination.latitude destination.longitude * 100)) ≤ (100 : ℚ) :=
        min_le_left _ _
      have hr : round ((min 100 (max 0
          (calculateDistance hav origin.latitude origin.longitude
              lastPosition.latitude lastPosition.longitude
            / calculateDistance hav origin.latitude origin.longitude
              destination.latitude destination.longitude * 100)) : ℚ) * 10)
          ≤ (1000 : ℤ) := by
        have hx : (min 100 (max 0
          (calculateDistance hav origin.latitude origin.longitude
              lastPosition.latitude lastPosition.longitude
            / calculateDistance hav origin.latitude origin.longitude
              destination.latitude destination.longitude * 100)) : ℚ) * 10
            ≤ (1000 : ℚ) := by nlinarith
        have := round_mono_q hx
        simpa using this
      unfold roundTo1
      rw [div_le_iff₀ (by norm_num : (0:ℚ) < 10)]
      calc ((round ((min 100 (max 0
          (calculateDistance hav origin.latitude origin.longitude
              lastPosition.latitude lastPosition.longitude
            / calculateDistance hav origin.latitude origin.longitude
              destination.latitude destination.longitude * 100)) : ℚ) * 10) : ℤ) : ℚ)
            ≤ ((1000 : ℤ) : ℚ) := by exact_mod_cast hr
        _ = 100 * 10 := by norm_num
  · intro tr htr
    rw [calculateProgressFromPositions, if_pos htr]

/-- C6 witness: the amended progress theorem at a concrete input with a
nonzero route distance. -/
theorem calculateProgress_spec_witness :
    calculateProgressFromPositions hav37 [mkSample 1, mkSample 2]
        (mkSample 2) { country_code := "AA", latitude := 10, longitude := 20 }
        { country_code := "BB", latitude := 50, longitude := 60 } 0
      = JSNum.fin (roundTo1 (min 100 (max 0
          (calculateDistance hav37 10 20 1 1
            / calculateDistance hav37 10 20 50 60 * 100))))
    ∧ (∃ q, calculateProgressFromPositions hav37 [mkSample 1, mkSample 2]
          (mkSample 2) { country_code := "AA", latitude := 10, longitude := 20 }
          { country_code := "BB", latitude := 50, longitude := 60 } 0
        = JSNum.fin q ∧ 0 ≤ q ∧ q ≤ 100) := by
  have h := calculateProgress_spec hav37 [mkSample 1, mkSample 2]
    (mkSample 2) { country_code := "AA", latitude := 10, longitude := 20 }
    { country_code := "BB", latitude := 50, longitude := 60 } 0
    (by decide) (by decide)
  exact ⟨h.1, h.2.1⟩

/-- The comparator of the merge sort in `startPolling`
(`(a, b) => getTime(a) - getTime(b)`): non-strict order on timestamps,
equal timestamps kept in original order by the stable JS sort. -/
def tsLe (a b : FlightTrackObject) : Prop :=
  a.timestamp ≤ b.timestamp

instance : DecidableRel tsLe := fun a b => Nat.decLe a.timestamp b.timestamp

instance : IsTotal FlightTrackObject tsLe :=
  ⟨fun a b => Nat.le_total a.timestamp b.timestamp⟩

instance : IsTrans FlightTrackObject tsLe :=
  ⟨fun _ _ _ hab hbc => Nat.le_trans hab hbc⟩

/-- The stable ascending-by-timestamp sort used on the merged track
(`mergedTrackData.sort(...)`; modern JS array sort is stable, so any stable
sort — here insertion sort — computes the same list). -/
def sortTrack (l : List FlightTrackObject) : List FlightTrackObject :=
  List.insertionSort tsLe l

/-- The track merge at polling start (`startPolling`, `index.ts`): with a
non-empty existing track, build the set of its timestamps, append the
incoming positions whose timestamp is not in that set, and sort; with no
existing track, use the incoming positions as they are (the source performs
no sort and no dedup in that branch). -/
def mergeTrack : List FlightTrackObject → List FlightTrackObject →
    List FlightTrackObject
  | [], incoming => incoming
  | e :: es, incoming =>
    let existing := e :: es
    let existingTimestamps := existing.map FlightTrackObject.timestamp
    sortTrack (existing ++ incoming.filter
      (fun p => decide (¬ p.timestamp ∈ existingTimestamps)))

/-- C4 counterexample — refutes C4 as stated: with an empty existing track
and unsorted incoming positions, the merge returns the incoming list
unsorted (not `B` sorted ascending), and re-merging with `B` changes the
result, so idempotence fails as well. -/
theorem mergeTrack_counterexample :
    mergeTrack [] [mkSample 2, mkSample 1] = [mkSample 2, mkSample 1]
    ∧ ¬ List.Sorted tsLe (mergeTrack [] [mkSample 2, mkSample 1])
    ∧ mergeTrack [] [mkSample 2, mkSample 1]
        ≠ sortTrack [mkSample 2, mkSample 1]
    ∧ mergeTrack (mergeTrack [] [mkSample 2, mkSample 1])
        [mkSample 2, mkSample 1]
      ≠ mergeTrack [] [mkSample 2, mkSample 1] := by
  refine ⟨rfl, ?_, by decide, by decide⟩
  intro h
  have := List.rel_of_sorted_cons h (mkSample 1) (by simp)
  simp [tsLe, mkSample] at this

/-- C4, amended: for a NON-empty existing track `A`, the merge is sorted
ascending by timestamp; if `A` and `B` each carry duplicate-free timestamps
the result has no duplicate timestamps; and merging the result with `B`
again is a no-op.  For an empty `A` the merge returns `B` exactly as given
(no sort, no dedup). -/
theorem mergeTrack_spec (A B : List FlightTrackObject) (hA : A ≠ [])
    (hAnd : (A.map FlightTrackObject.timestamp).Nodup)
    (hBnd : (B.map FlightTrackObject.timestamp).Nodup) :
    List.Sorted tsLe (mergeTrack A B)
    ∧ ((mergeTrack A B).map FlightTrackObject.timestamp).Nodup
    ∧ mergeTrack (mergeTrack A B) B = mergeTrack A B
    ∧ (∀ C, mergeTrack [] C = C) := by
  obtain ⟨e, es, rfl⟩ := List.exists_cons_of_ne_nil hA
  set P : FlightTrackObject → Bool := fun q =>
    decide (¬ q.timestamp ∈ (e :: es).map FlightTrackObject.timestamp)
    with hP
  set L : List FlightTrackObject := (e :: es) ++ B.filter P with hLdef
  have hmerge : mergeTrack (e :: es) B = sortTrack L := rfl
  have hsorted : List.Sorted tsLe (sortTrack L) :=
    List.sorted_insertionSort tsLe L
  have hperm : List.Perm (sortTrack L) L := List.perm_insertionSort tsLe L
  have hpermts : List.Perm ((sortTrack L).map FlightTrackObject.timestamp)
      (L.map FlightTrackObject.timestamp) := hperm.map _
  have hnodupL : (L.map FlightTrackObject.timestamp).Nodup := by
    rw [hLdef, List.map_append, List.nodup_append]
    refine ⟨hAnd, hBnd.sublist ((List.filter_sublist B).map _), ?_⟩
    intro t ht1 ht2
    rcases List.mem_map.mp ht2 with ⟨q, hqf, rfl⟩
    rcases List.mem_filter.mp hqf with ⟨hqB, hq⟩
    simp only [hP] at hq
    exact (of_decide_eq_true hq) ht1
  have hnodup : ((sortTrack L).map FlightTrackObject.timestamp).Nodup :=
    hpermts.nodup_iff.mpr hnodupL
  have hne : sortTrack L ≠ [] := by
    intro hnil
    have hlen := hperm.length_eq
    rw [hnil, hLdef] at hlen
    simp at hlen
  obtain ⟨m, ms, hM⟩ := List.exists_cons_of_ne_nil hne
  have hall : ∀ q ∈ B,
      q.timestamp ∈ (m :: ms).map FlightTrackObject.timestamp := by
    intro q hq
    have hq2 : q.timestamp ∈ L.map FlightTrackObject.timestamp := by
      rw [hLdef, List.map_append]
      by_cases hmem : q.timestamp ∈ (e :: es).map FlightTrackObject.timestamp
      · exact List.mem_append_left _ hmem
      · refine List.mem_append_right _ (List.mem_map.mpr ⟨q, ?_, rfl⟩)
        refine List.mem_filter.mpr ⟨hq, ?_⟩
        simp only [hP]
        exact decide_eq_true hmem
    rw [← hM]
    exact (hpermts.mem_iff).mpr hq2
  have hfilter : B.filter (fun q => decide (¬ q.timestamp
      ∈ (m :: ms).map FlightTrackObject.timestamp)) = [] := by
    refine List.filter_eq_nil_iff.mpr ?_
    intro q hq
    simp only [decide_eq_true_eq]
    exact not_not_intro (hall q hq)
  have hsorted2 : List.Sorted tsLe (m :: ms) := hM ▸ hsorted
  have hidem : mergeTrack (sortTrack L) B = sortTrack L := by
    rw [hM]
    have hstep : mergeTrack (m :: ms) B
        = sortTrack ((m :: ms) ++ B.filter (fun q => decide (¬ q.timestamp
            ∈ (m :: ms).map FlightTrackObject.timestamp))) := rfl
    rw [hstep, hfilter, List.append_nil]
    exact hsorted2.insertionSort_eq
  rw [hmerge]
  exact ⟨hsorted, hnodup, hidem, fun C => rfl⟩

/-- C4 witness: the amended merge theorem at a concrete non-empty existing
track and duplicate-free inputs. -/
theorem mergeTrack_spec_witness :
    List.Sorted tsLe (mergeTrack [mkSample 1] [mkSample 3, mkSample 2])
    ∧ ((mergeTrack [mkSample 1] [mkSample 3, mkSample 2]).map
        FlightTrackObject.timestamp).Nodup
    ∧ mergeTrack (mergeTrack [mkSample 1] [mkSample 3, mkSample 2])
        [mkSample 3, mkSample 2]
      = mergeTrack [mkSample 1] [mkSample 3, mkSample 2]
    ∧ (∀ C, mergeTrack [] C = C) :=
  mergeTrack_spec [mkSample 1] [mkSample 3, mkSample 2] (by decide)
    (by decide) (by decide)


/-- The per-tick track write of the polling loop (`startPolling`'s interval
body, `index.ts`): look for a stored sample with the same timestamp
(`findOne` on `flightTrack.timestamp`) and skip the write when present,
otherwise `$push` the sample to the END of the track. -/
def pushIfNew (track : List FlightTrackObject) (p : FlightTrackObject) :
    List FlightTrackObject :=
  if track.any (fun q => q.timestamp == p.timestamp) then track
  else track ++ [p]

/-- C5 counterexample — refutes C5 as stated: a fetched sample whose
timestamp precedes the stored track's last timestamp is appended at the end,
so the track after the tick is no longer sorted ascending. -/
theorem pushIfNew_counterexample :
    pushIfNew [mkSample 10] (mkSample 5) = [mkSample 10, mkSample 5]
    ∧ ¬ List.Sorted tsLe (pushIfNew [mkSample 10] (mkSample 5)) := by
  refine ⟨rfl, ?_⟩
  intro h
  have := List.rel_of_sorted_cons h (mkSample 5) (by simp)
  simp [tsLe, mkSample] at this

/-- C5, amended: the tick write preserves timestamp uniqueness for EVERY
fetched sample (in-order or not); it preserves ascending order exactly when
the fetched sample's timestamp is at least every stored one (the code
appends at the end, relying on the feed delivering monotone timestamps). -/
theorem pushIfNew_spec (track : List FlightTrackObject)
    (p : FlightTrackObject)
    (hnd : (track.map FlightTrackObject.timestamp).Nodup) :
    ((pushIfNew track p).map FlightTrackObject.timestamp).Nodup
    ∧ (List.Sorted tsLe track →
        (∀ q ∈ track, q.timestamp ≤ p.timestamp) →
        List.Sorted tsLe (pushIfNew track p)) := by
  by_cases hdup : track.any (fun q => q.timestamp == p.timestamp) = true
  · have hif : pushIfNew track p = track := by
      unfold pushIfNew
      rw [if_pos hdup]
    rw [hif]
    exact ⟨hnd, fun hsorted _ => hsorted⟩
  · have hif : pushIfNew track p = track ++ [p] := by
      unfold pushIfNew
      rw [if_neg hdup]
    rw [hif]
    constructor
    · rw [List.map_append, List.nodup_append]
      refine ⟨hnd, List.nodup_singleton _, ?_⟩
      intro t ht1 ht2
      simp only [List.map_cons, List.map_nil, List.mem_singleton] at ht2
      subst ht2
      rcases List.mem_map.mp ht1 with ⟨q, hqmem, hqts⟩
      refine hdup (List.any_eq_true.mpr ⟨q, hqmem, ?_⟩)
      exact beq_iff_eq.mpr hqts
    · intro hsorted hmono
      refine List.pairwise_append.mpr
        ⟨hsorted, List.pairwise_singleton _ _, ?_⟩
      intro a ha b hb
      simp only [List.mem_singleton] at hb
      subst hb
      exact hmono a ha

/-- C5 witness: the amended tick-write theorem applied twice — at an
out-of-order sample (uniqueness still preserved) and at an in-order sample
(uniqueness and sortedness preserved). -/
theorem pushIfNew_spec_witness :
    (((pushIfNew [mkSample 10] (mkSample 5)).map
        FlightTrackObject.timestamp).Nodup)
    ∧ (((pushIfNew [mkSample 10] (mkSample 20)).map
        FlightTrackObject.timestamp).Nodup)
    ∧ List.Sorted tsLe (pushIfNew [mkSample 10] (mkSample 20)) :=
  ⟨(pushIfNew_spec [mkSample 10] (mkSample 5) (by decide)).1,
   (pushIfNew_spec [mkSample 10] (mkSample 20) (by decide)).1,
   (pushIfNew_spec [mkSample 10] (mkSample 20) (by decide)).2
     (by decide) (by decide)⟩

/-- `findOne({ fa_flight_id: fid })` on the `flights` collection. -/
def findFlight (fid : String) (flights : List FlightMetadata) :
    Option FlightMetadata :=
  flights.find? (fun f => f.fa_flight_id == fid)

/-- `updateOne`/`findOneAndUpdate` keyed on `fa_flight_id`: apply the update
to the matching record(s), leave every other record untouched. -/
def updateFlight (fid : String) (u : FlightMetadata → FlightMetadata)
    (flights : List FlightMetadata) : List FlightMetadata :=
  flights.map (fun f => if f.fa_flight_id == fid then u f else f)

/-- The coordinator state: the `flights` collection plus whether the single
`pollingInterval` timer is armed. -/
structure SysState where
  flights : List FlightMetadata
  polling : Bool
deriving DecidableEq

/-- The WebSocket event names broadcast by the server (`WebSocketEventType`
in `src/types.ts`, restricted to the ones the coordinator emits). -/
inductive EventType where
  | initial_state
  | client_added
  | client_removed
  | start_flight
  | position_update
  | flight_completed
deriving DecidableEq

/-- The feed data `startPolling` consumes from `getFlightInfo` /
`getFlightPosition`: `status` is `initialFlightData?.flights?.[0]?.status`
(`none` for a missing record) and `waypoints`/`lastPosition` come from the
position response. -/
structure FeedStart where
  status : Option String
  waypoints : List FlightTrackObject
  lastPosition : FlightTrackObject
deriving DecidableEq

/-- The record update performed by `startPolling`'s `findOneAndUpdate`
(`index.ts`): set status fields, flip `is_tracking` on, store waypoints and
the merged track.  `standardizeFlightStatus feed.status` coincides with the
source's `status ? standardizeFlightStatus(status) : "unknown"` because the
embedding maps the falsy inputs to `unknown` itself. -/
def startUpdate (feed : FeedStart) (merged : List FlightTrackObject)
    (f : FlightMetadata) : FlightMetadata :=
  { f with
    status := feed.status,
    standardized_status := standardizeFlightStatus feed.status,
    is_tracking := true,
    waypoints := feed.waypoints,
    flightTrack := merged }

/-- The store effect and broadcast of `startPolling` (`index.ts`): clear any
previous interval, merge the stored track with the fetched positions, write
the record with `is_tracking = true`, broadcast `start_flight`, arm the
interval. -/
def startPollingUpdate (fid : String) (feed : FeedStart)
    (positions : List FlightTrackObject) (st : SysState) :
    SysState × List EventType :=
  let merged :=
    match findFlight fid st.flights with
    | some f => mergeTrack f.flightTrack positions
    | none => positions
  ({ flights := updateFlight fid (startUpdate feed merged) st.flights,
     polling := true },
   [EventType.start_flight])

/-- The observable HTTP outcomes of `handleStartTracking`. -/
inductive StartOutcome where
  | missingId
  | notFound
  | alreadyTracking
  | started
deriving DecidableEq

/-- `handleStartTracking` (`index.ts`): reject a missing id, 404 an unknown
flight, answer softly when THE SAME flight is already tracking, and
otherwise run `startPolling`.  No check against other journeys is made. -/
def handleStartTracking (fid : Option String) (feed : FeedStart)
    (positions : List FlightTrackObject) (st : SysState) :
    StartOutcome × SysState × List EventType :=
  match fid with
  | none => (StartOutcome.missingId, st, [])
  | some f =>
    if f = "" then (StartOutcome.missingId, st, [])
    else
      match findFlight f st.flights with
      | none => (StartOutcome.notFound, st, [])
      | some fl =>
        if fl.is_tracking then (StartOutcome.alreadyTracking, st, [])
        else
          let r := startPollingUpdate f feed positions st
          (StartOutcome.started, r.1, r.2)

/-- How many stored journeys currently have `is_tracking = true`. -/
def countTracking (flights : List FlightMetadata) : Nat :=
  (flights.filter (fun f => f.is_tracking)).length

/-- Identifier constants for the concrete scenarios. -/
def idA : String := "A"

def idB : String := "B"

/-- A non-tracking stored journey with the given id. -/
def mkFlight (fid : String) : FlightMetadata :=
  { fa_flight_id := fid,
    origin := { country_code := "US", latitude := 10, longitude := 20 },
    destination := { country_code := "FR", latitude := 30, longitude := 40 },
    status := none,
    standardized_status := Status.scheduled,
    is_tracking := false,
    waypoints := [],
    flightTrack := [],
    actual_on := none }

/-- A feed snapshot used by the concrete scenarios. -/
def feedW : FeedStart :=
  { status := some (String.mk ['E', 'n', ' ', 'R', 'o', 'u', 't', 'e']),
    waypoints := [],
    lastPosition := mkSample 7 }

/-- C1 counterexample — refutes C1 as stated: starting journey B while
journey A is already tracking does NOT fail; both starts succeed and the
store reaches a state with TWO `is_tracking = true` records. -/
theorem handleStartTracking_counterexample :
    (handleStartTracking (some idA) feedW []
        { flights := [mkFlight idA, mkFlight idB], polling := false }).1
      = StartOutcome.started
    ∧ (handleStartTracking (some idB) feedW []
        (handleStartTracking (some idA) feedW []
          { flights := [mkFlight idA, mkFlight idB],
            polling := false }).2.1).1
      = StartOutcome.started
    ∧ countTracking (handleStartTracking (some idB) feedW []
        (handleStartTracking (some idA) feedW []
          { flights := [mkFlight idA, mkFlight idB],
            polling := false }).2.1).2.1.flights = 2 := by
  refine ⟨rfl, rfl, ?_⟩
  rfl

/-- C1, amended: `handleStartTracking` checks only the target journey.
When the target exists and is not itself tracking, the call succeeds
(regardless of any other tracking journey), sets `is_tracking = true` on the
target, and leaves every other journey's record unchanged in the store. -/
theorem handleStartTracking_spec (fid : String) (feed : FeedStart)
    (positions : List FlightTrackObject) (st : SysState)
    (f : FlightMetadata) (hfid : fid ≠ "")
    (hfind : findFlight fid st.flights = some f)
    (hnt : f.is_tracking = false) :
    (handleStartTracking (some fid) feed positions st).1
      = StartOutcome.started
    ∧ (handleStartTracking (some fid) feed positions st).2.2
      = [EventType.start_flight]
    ∧ (∀ g ∈ st.flights, g.fa_flight_id ≠ fid →
        g ∈ (handleStartTracking (some fid) feed positions st).2.1.flights)
    ∧ (∃ g ∈ (handleStartTracking (some fid) feed positions st).2.1.flights,
        g.fa_flight_id = fid ∧ g.is_tracking = true) := by
  have hres : handleStartTracking (some fid) feed positions st
      = (StartOutcome.started, (startPollingUpdate fid feed positions st).1,
         (startPollingUpdate fid feed positions st).2) := by
    rw [handleStartTracking]
    rw [if_neg hfid, hfind]
    simp [hnt]
  rw [hres]
  refine ⟨rfl, rfl, ?_, ?_⟩
  · intro g hg hgfid
    simp only [startPollingUpdate, updateFlight]
    refine List.mem_map.mpr ⟨g, hg, ?_⟩
    rw [if_neg]
    simp only [beq_iff_eq]
    exact hgfid
  · have hmem : f ∈ st.flights := List.mem_of_find?_eq_some hfind
    have hfeq : f.fa_flight_id = fid := by
      have := List.find?_some hfind
      exact beq_iff_eq.mp this
    refine ⟨startUpdate feed
      (match findFlight fid st.flights with
       | some g => mergeTrack g.flightTrack positions
       | none => positions) f, ?_, ?_, rfl⟩
    · simp only [startPollingUpdate, updateFlight]
      refine List.mem_map.mpr ⟨f, hmem, ?_⟩
      rw [if_pos]
      simp only [beq_iff_eq]
      exact hfeq
    · exact hfeq

/-- C1 witness: the amended start theorem at a concrete store in which
another journey (A) is already tracking. -/
theorem handleStartTracking_spec_witness :
    (handleStartTracking (some idB) feedW []
        { flights := [{ mkFlight idA with is_tracking := true },
                      mkFlight idB], polling := false }).1
      = StartOutcome.started
    ∧ (handleStartTracking (some idB) feedW []
        { flights := [{ mkFlight idA with is_tracking := true },
                      mkFlight idB], polling := false }).2.2
      = [EventType.start_flight]
    ∧ (∀ g ∈ ({ flights := [{ mkFlight idA with is_tracking := true },
                  mkFlight idB], polling := false } : SysState).flights,
        g.fa_flight_id ≠ idB →
        g ∈ (handleStartTracking (some idB) feedW []
          { flights := [{ mkFlight idA with is_tracking := true },
                        mkFlight idB], polling := false }).2.1.flights)
    ∧ (∃ g ∈ (handleStartTracking (some idB) feedW []
          { flights := [{ mkFlight idA with is_tracking := true },
                        mkFlight idB], polling := false }).2.1.flights,
        g.fa_flight_id = idB ∧ g.is_tracking = true) :=
  handleStartTracking_spec idB feedW []
    { flights := [{ mkFlight idA with is_tracking := true }, mkFlight idB],
      polling := false }
    (mkFlight idB) (by decide) (by decide) (by decide)

/-- The first record of the final `getFlightInfo` response used by
`stopPolling` (`finalFlightData?.flights?.[0]`), restricted to the fields
the stop path reads. -/
structure FinalFlightRec where
  status : Option String
  cancelled : Option Bool
  actual_on : Option Nat
deriving DecidableEq

/-- Outcome of the best-effort final fetch in `stopPolling`:
`fetchError` models the `Promise.all` rejecting (caught, defaults kept);
`ok` carries `finalFlightData?.flights?.[0]` and
`finalPositionData?.actual_on`. -/
inductive FinalFetch where
  | fetchError
  | ok (flight0 : Option FinalFlightRec) (posActualOn : Option Nat)
deriving DecidableEq

/-- `finalStatus` in `stopPolling`: the API status when present and truthy,
otherwise the `"completed"` default. -/
def finalStatusOf (final : FinalFetch) : String :=
  match final with
  | FinalFetch.fetchError => "completed"
  | FinalFetch.ok flight0 _ =>
    match flight0 with
    | none => "completed"
    | some r =>
      match r.status with
      | none => "completed"
      | some s => if s = "" then ("completed") else s

/-- The `actual_on` value `stopPolling` persists: the final position's
`actual_on` wins, else the final flight record's, else the stored value is
kept (`none` here means "leave unchanged"). -/
def finalActualOnOf (final : FinalFetch) : Option Nat :=
  match final with
  | FinalFetch.fetchError => none
  | FinalFetch.ok flight0 posActualOn =>
    match posActualOn with
    | some t => some t
    | none =>
      match flight0 with
      | some r => r.actual_on
      | none => none

/-- The `$set` update `stopPolling` performs on the stopped journey:
final status, its standardization, `is_tracking = false`, and the
best-effort `actual_on`. -/
def stopUpdate (final : FinalFetch) (f : FlightMetadata) : FlightMetadata :=
  { f with
    status := some (finalStatusOf final),
    standardized_status := standardizeFlightStatus (some (finalStatusOf final)),
    is_tracking := false,
    actual_on :=
      match finalActualOnOf final with
      | some t => some t
      | none => f.actual_on }

/-- `stopPolling(faFlightId, serverShutdown)` (`index.ts`): always clears
the interval; with `serverShutdown = true` it returns success immediately
(no store read, no write, no broadcast); otherwise it requires the flight to
exist, performs the best-effort final fetch, persists the final fields with
`is_tracking = false`, and broadcasts `flight_completed`.  Returns the
handler's boolean result. -/
def stopPolling (fid : String) (serverShutdown : Bool) (final : FinalFetch)
    (st : SysState) : Bool × SysState × List EventType :=
  let st1 : SysState := { st with polling := false }
  if serverShutdown then (true, st1, [])
  else
    match findFlight fid st1.flights with
    | none => (false, st1, [])
    | some _ =>
      (true,
       { st1 with
          flights := updateFlight fid (stopUpdate final) st1.flights },
       [EventType.flight_completed])

/-- The observable HTTP outcomes of `handleStopTracking`. -/
inductive StopOutcome where
  | missingId
  | success
  | failure
deriving DecidableEq

/-- `handleStopTracking` (`index.ts`): rejects a missing id and otherwise
calls `stopPolling(fa_flight_id, true)` — that is, with the server-shutdown
fast path engaged. -/
def handleStopTracking (fid : Option String) (final : FinalFetch)
    (st : SysState) : StopOutcome × SysState × List EventType :=
  match fid with
  | none => (StopOutcome.missingId, st, [])
  | some f =>
    if f = "" then (StopOutcome.missingId, st, [])
    else
      let r := stopPolling f true final st
      (if r.1 then StopOutcome.success else StopOutcome.failure, r.2.1, r.2.2)

/-- C2: the exposed stop endpoint takes the shutdown fast path
unconditionally.  At a store in which journey B is the tracked journey, the
handler reports success, yet the journey still has `is_tracking = true`, no
`flight_completed` event is broadcast, and no final fields are written —
contradicting the claimed stop semantics.  (There is also no check anywhere
that the journey is the currently active one.) -/
theorem handleStopTracking_bug :
    handleStopTracking (some idB)
        (FinalFetch.ok
          (some { status := some (String.mk ['A', 'r', 'r', 'i', 'v', 'e',
                    'd']), cancelled := some false, actual_on := some 99 })
          (some 99))
        { flights := [{ mkFlight idB with is_tracking := true }],
          polling := true }
      = (StopOutcome.success,
         { flights := [{ mkFlight idB with is_tracking := true }],
           polling := false },
         []) := by
  rfl

/-- Result of one `getFlightPosition` call inside the polling interval:
the fetch throws, returns no usable `last_position`, or returns a sample
(with the feed's `actual_on` arrival timestamp when present). -/
inductive FeedResult where
  | fetchError
  | noPosition
  | position (p : FlightTrackObject) (actualOn : Option Nat)
deriving DecidableEq

/-- `MAX_CONSECUTIVE_ERRORS` in `startPolling`. -/
def MAX_CONSECUTIVE_ERRORS : Nat := 5

/-- The polling-loop state: the shared coordinator state plus the
`consecutiveErrors` closure variable of `startPolling`. -/
structure PollState where
  sys : SysState
  consecutiveErrors : Nat
deriving DecidableEq

/-- The failure path of one tick (`consecutiveErrors++` and the threshold
check): at the threshold the loop runs the full `stopPolling` path and
stays stopped, otherwise the tick ends with the counter preserved. -/
def pollErrorStep (fid : String) (final : FinalFetch) (ps : PollState) :
    PollState × List EventType :=
  let n := ps.consecutiveErrors + 1
  if MAX_CONSECUTIVE_ERRORS ≤ n then
    let s := stopPolling fid false final ps.sys
    ({ sys := s.2.1, consecutiveErrors := n }, s.2.2)
  else ({ ps with consecutiveErrors := n }, [])

/-- One execution of the polling interval body (`startPolling`,
`index.ts`): do nothing if the interval is cleared; stop if the store no
longer marks the journey tracking; on a fetch error or empty position
bump the error counter (threshold 5 triggers the full stop path); on
landing indicators run the full stop path; otherwise reset the counter,
skip the write on a timestamp collision, else append the sample and
broadcast `position_update`. -/
def pollTick (fid : String) (r : FeedResult) (final : FinalFetch)
    (ps : PollState) : PollState × List EventType :=
  match ps.sys.polling with
  | false => (ps, [])
  | true =>
    let tracked :=
      match findFlight fid ps.sys.flights with
      | some f => f.is_tracking
      | none => false
    match tracked with
    | false =>
      let s := stopPolling fid false final ps.sys
      ({ sys := s.2.1, consecutiveErrors := ps.consecutiveErrors }, s.2.2)
    | true =>
      match r with
      | FeedResult.fetchError => pollErrorStep fid final ps
      | FeedResult.noPosition => pollErrorStep fid final ps
      | FeedResult.position p actualOn =>
        if actualOn.isSome ∨ (p.altitude = -1 ∧ p.groundspeed = 0) then
          let s := stopPolling fid false final ps.sys
          ({ sys := s.2.1, consecutiveErrors := ps.consecutiveErrors },
           s.2.2)
        else
          let dup :=
            match findFlight fid ps.sys.flights with
            | some fl =>
              fl.flightTrack.any (fun q => q.timestamp == p.timestamp)
            | none => false
          match dup with
          | true => ({ sys := ps.sys, consecutiveErrors := 0 }, [])
          | false =>
            ({ sys :=
                { flights := updateFlight fid (fun fl =>
                    { fl with flightTrack := pushIfNew fl.flightTrack p })
                    ps.sys.flights,
                  polling := ps.sys.polling },
               consecutiveErrors := 0 },
             [EventType.position_update])

/-- A sequence of interval executions with the given feed outcomes. -/
def runTicks (fid : String) :
    List (FeedResult × FinalFetch) → PollState → PollState × List EventType
  | [], ps => (ps, [])
  | (r, final) :: rest, ps =>
    ((runTicks fid rest (pollTick fid r final ps).1).1,
     (pollTick fid r final ps).2
       ++ (runTicks fid rest (pollTick fid r final ps).1).2)

theorem runTicks_cons (fid : String) (r : FeedResult) (final : FinalFetch)
    (rest : List (FeedResult × FinalFetch)) (ps ps2 : PollState)
    (evs : List EventType) (h : pollTick fid r final ps = (ps2, evs)) :
    runTicks fid ((r, final) :: rest) ps
      = ((runTicks fid rest ps2).1, evs ++ (runTicks fid rest ps2).2) := by
  rw [runTicks, h]

theorem stopPolling_found (fid : String) (final : FinalFetch)
    (st : SysState) (f : FlightMetadata)
    (hfind : findFlight fid st.flights = some f) :
    stopPolling fid false final st
      = (true,
         { flights := updateFlight fid (stopUpdate final) st.flights,
           polling := false },
         [EventType.flight_completed]) := by
  unfold stopPolling
  simp only [Bool.false_eq_true, if_false, hfind]

theorem pollTick_err_incr (fid : String) (final : FinalFetch)
    (st : SysState) (f : FlightMetadata) (n : Nat)
    (hfind : findFlight fid st.flights = some f) (htr : f.is_tracking = true)
    (hpoll : st.polling = true) (r : FeedResult)
    (hr : r = FeedResult.noPosition ∨ r = FeedResult.fetchError)
    (hlt : n + 1 < MAX_CONSECUTIVE_ERRORS) :
    pollTick fid r final { sys := st, consecutiveErrors := n }
      = ({ sys := st, consecutiveErrors := n + 1 }, []) := by
  have hstep : pollErrorStep fid final { sys := st, consecutiveErrors := n }
      = ({ sys := st, consecutiveErrors := n + 1 }, []) := by
    unfold pollErrorStep
    rw [if_neg (by omega : ¬ MAX_CONSECUTIVE_ERRORS ≤ n + 1)]
  rcases hr with rfl | rfl <;>
    simp only [pollTick, hpoll, hfind, htr, hstep]

theorem pollTick_err_stop (fid : String) (final : FinalFetch)
    (st : SysState) (f : FlightMetadata) (n : Nat)
    (hfind : findFlight fid st.flights = some f) (htr : f.is_tracking = true)
    (hpoll : st.polling = true) (r : FeedResult)
    (hr : r = FeedResult.noPosition ∨ r = FeedResult.fetchError)
    (hge : MAX_CONSECUTIVE_ERRORS ≤ n + 1) :
    pollTick fid r final { sys := st, consecutiveErrors := n }
      = ({ sys := { flights := updateFlight fid (stopUpdate final) st.flights,
                    polling := false },
           consecutiveErrors := n + 1 },
         [EventType.flight_completed]) := by
  have hstep : pollErrorStep fid final { sys := st, consecutiveErrors := n }
      = ({ sys := { flights := updateFlight fid (stopUpdate final) st.flights,
                    polling := false },
           consecutiveErrors := n + 1 },
         [EventType.flight_completed]) := by
    unfold pollErrorStep
    rw [if_pos hge, stopPolling_found fid final st f hfind]
  rcases hr with rfl | rfl <;>
    simp only [pollTick, hpoll, hfind, htr, hstep]

/-- C3: fetch failures and empty position responses increment the
consecutive-error counter (tick otherwise a no-op below the threshold);
a successful non-landing fetch resets it to 0; and five consecutive empty
responses from a tracked, polling state leave the loop idle, the journey
with `is_tracking = false`, and broadcast `flight_completed` exactly once
via the full stop path. -/
theorem pollLoop_spec (fid : String) (final : FinalFetch) (st : SysState)
    (f : FlightMetadata)
    (hfind : findFlight fid st.flights = some f)
    (htr : f.is_tracking = true)
    (hpoll : st.polling = true) :
    (runTicks fid (List.replicate 5 (FeedResult.noPosition, final))
        { sys := st, consecutiveErrors := 0 }).1.sys.polling = false
    ∧ (∀ g ∈ (runTicks fid (List.replicate 5 (FeedResult.noPosition, final))
          { sys := st, consecutiveErrors := 0 }).1.sys.flights,
        g.fa_flight_id = fid → g.is_tracking = false)
    ∧ (runTicks fid (List.replicate 5 (FeedResult.noPosition, final))
        { sys := st, consecutiveErrors := 0 }).2.count
          EventType.flight_completed = 1
    ∧ (∀ (n : Nat) (r : FeedResult),
        (r = FeedResult.noPosition ∨ r = FeedResult.fetchError) →
        n + 1 < MAX_CONSECUTIVE_ERRORS →
        pollTick fid r final { sys := st, consecutiveErrors := n }
          = ({ sys := st, consecutiveErrors := n + 1 }, []))
    ∧ (∀ (n : Nat) (p : FlightTrackObject),
        ¬ (p.altitude = -1 ∧ p.groundspeed = 0) →
        (pollTick fid (FeedResult.position p none) final
          { sys := st, consecutiveErrors := n }).1.consecutiveErrors = 0) := by
  have t1 : pollTick fid FeedResult.noPosition final
      { sys := st, consecutiveErrors := 0 }
      = ({ sys := st, consecutiveErrors := 1 }, []) := by
    simpa using pollTick_err_incr fid final st f 0 hfind htr hpoll
      FeedResult.noPosition (Or.inl rfl) (by norm_num [MAX_CONSECUTIVE_ERRORS])
  have t2 : pollTick fid FeedResult.noPosition final
      { sys := st, consecutiveErrors := 1 }
      = ({ sys := st, consecutiveErrors := 2 }, []) := by
    simpa using pollTick_err_incr fid final st f 1 hfind htr hpoll
      FeedResult.noPosition (Or.inl rfl) (by norm_num [MAX_CONSECUTIVE_ERRORS])
  have t3 : pollTick fid FeedResult.noPosition final
      { sys := st, consecutiveErrors := 2 }
      = ({ sys := st, consecutiveErrors := 3 }, []) := by
    simpa using pollTick_err_incr fid final st f 2 hfind htr hpoll
      FeedResult.noPosition (Or.inl rfl) (by norm_num [MAX_CONSECUTIVE_ERRORS])
  have t4 : pollTick fid FeedResult.noPosition final
      { sys := st, consecutiveErrors := 3 }
      = ({ sys := st, consecutiveErrors := 4 }, []) := by
    simpa using pollTick_err_incr fid final st f 3 hfind htr hpoll
      FeedResult.noPosition (Or.inl rfl) (by norm_num [MAX_CONSECUTIVE_ERRORS])
  have t5 : pollTick fid FeedResult.noPosition final
      { sys := st, consecutiveErrors := 4 }
      = ({ sys := { flights := updateFlight fid (stopUpdate final) st.flights,
                    polling := false },
           consecutiveErrors := 5 },
         [EventType.flight_completed]) := by
    simpa using pollTick_err_stop fid final st f 4 hfind htr hpoll
      FeedResult.noPosition (Or.inl rfl) (by norm_num [MAX_CONSECUTIVE_ERRORS])
  have hrun : runTicks fid (List.replicate 5 (FeedResult.noPosition, final))
      { sys := st, consecutiveErrors := 0 }
      = ({ sys := { flights := updateFlight fid (stopUpdate final) st.flights,
                    polling := false },
           consecutiveErrors := 5 },
         [EventType.flight_completed]) := by
    have hrep : List.replicate 5 ((FeedResult.noPosition, final))
        = [(FeedResult.noPosition, final), (FeedResult.noPosition, final),
           (FeedResult.noPosition, final), (FeedResult.noPosition, final),
           (FeedResult.noPosition, final)] := rfl
    rw [hrep]
    rw [runTicks_cons fid _ _ _ _ _ _ t1]
    rw [runTicks_cons fid _ _ _ _ _ _ t2]
    rw [runTicks_cons fid _ _ _ _ _ _ t3]
    rw [runTicks_cons fid _ _ _ _ _ _ t4]
    rw [runTicks_cons fid _ _ _ _ _ _ t5]
    simp only [runTicks]
    simp
  refine ⟨?_, ?_, ?_, ?_, ?_⟩
  · rw [hrun]
  · rw [hrun]
    intro g hg hid
    rcases List.mem_map.mp hg with ⟨orig, _, heq⟩
    by_cases horig : (orig.fa_flight_id == fid) = true
    · simp only [if_pos horig] at heq
      rw [← heq]
      rfl
    · simp only [if_neg horig] at heq
      subst heq
      exact absurd (beq_iff_eq.mpr hid) horig
  · rw [hrun]
    simp
  · intro n r hrr hlt
    exact pollTick_err_incr fid final st f n hfind htr hpoll r hrr hlt
  · intro n p hnl
    simp only [pollTick, hpoll, hfind, htr, Option.isSome_none,
      Bool.false_eq_true, false_or]
    rw [if_neg hnl]
    cases hany : f.flightTrack.any (fun q => q.timestamp == p.timestamp) <;>
      simp [hany]

/-- C3 witness: the five-empty-responses scenario at a concrete tracked
journey. -/
theorem pollLoop_spec_witness :
    (runTicks idB (List.replicate 5 (FeedResult.noPosition,
        FinalFetch.fetchError))
      { sys := { flights := [{ mkFlight idB with is_tracking := true }],
                 polling := true },
        consecutiveErrors := 0 }).1.sys.polling = false
    ∧ (runTicks idB (List.replicate 5 (FeedResult.noPosition,
        FinalFetch.fetchError))
      { sys := { flights := [{ mkFlight idB with is_tracking := true }],
                 polling := true },
        consecutiveErrors := 0 }).2.count EventType.flight_completed = 1 :=
  ⟨(pollLoop_spec idB FinalFetch.fetchError
      { flights := [{ mkFlight idB with is_tracking := true }],
        polling := true }
      { mkFlight idB with is_tracking := true }
      (by decide) (by decide) (by decide)).1,
   (pollLoop_spec idB FinalFetch.fetchError
      { flights := [{ mkFlight idB with is_tracking := true }],
        polling := true }
      { mkFlight idB with is_tracking := true }
      (by decide) (by decide) (by decide)).2.2.1⟩

/-- The atomic events in one subscriber connection's early lifecycle
(`websocket.open`/`close` in `index.ts`): the 1 s stabilization callback,
the 5 s setup-timeout callback, and the transport closing (which also fires
the `close` handler).  The event loop runs them one at a time. -/
inductive ConnEvent where
  | stabilize
  | setupTimeout
  | closeEvt
deriving DecidableEq

/-- Per-connection state: whether the transport still reports OPEN, and the
connection's entry in `clientConnections` (`connected`, `setupComplete`),
`none` while not registered.  The `open` handler registers nothing until
the stabilization callback runs. -/
structure ConnState where
  transportOpen : Bool
  conn : Option (Bool × Bool)
deriving DecidableEq

/-- One lifecycle event (`index.ts`):
the stabilization callback registers the connection with
`setupComplete = true` and broadcasts `client_added` only if the transport
is still open; the setup timeout closes a connection whose setup is
incomplete; the `close` handler deletes the map entry and broadcasts
`client_removed` only for a setup-complete entry. -/
def connStep (s : ConnState) : ConnEvent → ConnState × List EventType
  | ConnEvent.stabilize =>
    match s.transportOpen with
    | true => ({ s with conn := some (true, true) },
               [EventType.client_added])
    | false => (s, [])
  | ConnEvent.setupTimeout =>
    match s.conn with
    | some (_, true) => (s, [])
    | _ => ({ s with transportOpen := false }, [])
  | ConnEvent.closeEvt =>
    ({ transportOpen := false, conn := none },
     match s.conn with
     | some (_, true) => [EventType.client_removed]
     | _ => [])

/-- A sequence of lifecycle events for one connection. -/
def runConn : List ConnEvent → ConnState → ConnState × List EventType
  | [], s => (s, [])
  | e :: es, s =>
    ((runConn es (connStep s e).1).1,
     (connStep s e).2 ++ (runConn es (connStep s e).1).2)

theorem runConn_no_stabilize (evs : List ConnEvent)
    (h : ConnEvent.stabilize ∉ evs) :
    ∀ b : Bool, (runConn evs { transportOpen := b, conn := none }).2 = []
      ∧ ∃ b2 : Bool, (runConn evs { transportOpen := b, conn := none }).1
        = { transportOpen := b2, conn := none } := by
  induction evs with
  | nil => intro b; exact ⟨rfl, b, rfl⟩
  | cons e es ih =>
    intro b
    have he : e ≠ ConnEvent.stabilize := by
      intro hcontra
      exact h (hcontra ▸ List.mem_cons_self e es)
    have hes : ConnEvent.stabilize ∉ es := fun hmem =>
      h (List.mem_cons_of_mem e hmem)
    match e, he with
    | ConnEvent.setupTimeout, _ =>
      have hstep : connStep { transportOpen := b, conn := none }
          ConnEvent.setupTimeout
          = ({ transportOpen := false, conn := none }, []) := rfl
      rw [runConn, hstep]
      rcases ih hes false with ⟨h1, b2, h2⟩
      exact ⟨by simpa using h1, b2, by simpa using h2⟩
    | ConnEvent.closeEvt, _ =>
      have hstep : connStep { transportOpen := b, conn := none }
          ConnEvent.closeEvt
          = ({ transportOpen := false, conn := none }, []) := rfl
      rw [runConn, hstep]
      rcases ih hes false with ⟨h1, b2, h2⟩
      exact ⟨by simpa using h1, b2, by simpa using h2⟩

theorem runConn_dead (evs : List ConnEvent) :
    (runConn evs { transportOpen := false, conn := none }).2 = []
    ∧ (runConn evs { transportOpen := false, conn := none }).1
      = { transportOpen := false, conn := none } := by
  induction evs with
  | nil => exact ⟨rfl, rfl⟩
  | cons e es ih =>
    have hstep : connStep { transportOpen := false, conn := none } e
        = ({ transportOpen := false, conn := none }, []) := by
      cases e <;> rfl
    rw [runConn, hstep]
    exact ⟨by simpa using ih.1, by simpa using ih.2⟩

/-- C8: a connection whose transport closes before the stabilization
callback ever makes it setup-complete is never registered, so no
`client_added` or `client_removed` (indeed no broadcast at all) is emitted
for it, regardless of the setup timeout and later callbacks. -/
theorem connection_early_close_spec (pre post : List ConnEvent)
    (hpre : ConnEvent.stabilize ∉ pre) :
    (runConn (pre ++ ConnEvent.closeEvt :: post)
      { transportOpen := true, conn := none }).2 = [] := by
  induction pre with
  | nil =>
    rw [List.nil_append, runConn]
    have hstep : connStep { transportOpen := true, conn := none }
        ConnEvent.closeEvt
        = ({ transportOpen := false, conn := none }, []) := rfl
    rw [hstep]
    simpa using (runConn_dead post).1
  | cons e es ih =>
    have he : e ≠ ConnEvent.stabilize := by
      intro hcontra
      exact hpre (hcontra ▸ List.mem_cons_self e es)
    have hes : ConnEvent.stabilize ∉ es := fun hmem =>
      hpre (List.mem_cons_of_mem e hmem)
    match e, he with
    | ConnEvent.setupTimeout, _ =>
      rw [List.cons_append, runConn]
      have hstep : connStep { transportOpen := true, conn := none }
          ConnEvent.setupTimeout
          = ({ transportOpen := false, conn := none }, []) := rfl
      rw [hstep]
      have hdead := runConn_dead (es ++ ConnEvent.closeEvt :: post)
      simpa using hdead.1
    | ConnEvent.closeEvt, _ =>
      rw [List.cons_append, runConn]
      have hstep : connStep { transportOpen := true, conn := none }
          ConnEvent.closeEvt
          = ({ transportOpen := false, conn := none }, []) := rfl
      rw [hstep]
      have hdead := runConn_dead (es ++ ConnEvent.closeEvt :: post)
      simpa using hdead.1

/-- C8 witness: the setup timeout fires, the transport closes, and a late
stabilization callback runs — no broadcast is emitted. -/
theorem connection_early_close_spec_witness :
    (runConn ([ConnEvent.setupTimeout] ++ ConnEvent.closeEvt
        :: [ConnEvent.stabilize])
      { transportOpen := true, conn := none }).2 = [] :=
  connection_early_close_spec [ConnEvent.setupTimeout]
    [ConnEvent.stabilize] (by decide)

/-- One registered subscriber connection as seen by `broadcastUpdate`
(`index.ts`): the map entry's `connected`/`setupComplete` flags, whether
`ws.readyState === WebSocket.OPEN`, and whether `ws.send` would throw for
this recipient on this broadcast. -/
structure Subscriber where
  clientId : String
  connected : Bool
  setupComplete : Bool
  transportOpen : Bool
  sendFails : Bool
deriving DecidableEq

/-- Eligibility check of the send loop: `connected && setupComplete &&
readyState === OPEN`. -/
def eligibleB (c : Subscriber) : Bool :=
  c.connected && c.setupComplete && c.transportOpen

/-- A successful delivery: eligible and `ws.send` does not throw. -/
def deliverB (c : Subscriber) : Bool :=
  eligibleB c && !c.sendFails

/-- The sweep predicate of `broadcastUpdate`: `setupComplete &&
(!connected || readyState !== OPEN)`. -/
def staleB (c : Subscriber) : Bool :=
  c.setupComplete && (!c.connected || !c.transportOpen)

/-- The effect of the send loop on one connection: a throwing `ws.send`
marks that connection (and only it) `connected = false`. -/
def markFail (c : Subscriber) : Subscriber :=
  if eligibleB c && c.sendFails then { c with connected := false } else c

/-- One iteration of the send loop (`broadcastUpdate`, `index.ts`):
eligible and sending → delivered; eligible and throwing → caught, mark
`connected = false`, count for cleanup; skipped → count for cleanup when
already stale.  Returns the updated entry, the ids delivered to, and the
`cleanupCount` contribution. -/
def sendOne (c : Subscriber) : Subscriber × List String × Nat :=
  if eligibleB c then
    if c.sendFails then
      ({ c with connected := false }, [],
       if c.setupComplete then 1 else 0)
    else (c, [c.clientId], 0)
  else (c, [], if staleB c then 1 else 0)

/-- The full send loop over the registry in iteration order. -/
def sendPhase : List Subscriber → List Subscriber × List String × Nat
  | [] => ([], [], 0)
  | c :: rest =>
    ((sendOne c).1 :: (sendPhase rest).1,
     (sendOne c).2.1 ++ (sendPhase rest).2.1,
     (sendOne c).2.2 + (sendPhase rest).2.2)

/-- The cleanup loop after the send sweep (`broadcastUpdate`): entered only
with a positive `cleanupCount`; deletes entries satisfying the sweep
predicate, decrementing the counter and breaking when it reaches zero. -/
def cleanupPhase : List Subscriber → Nat → List Subscriber
  | l, 0 => l
  | [], _ + 1 => []
  | c :: rest, n + 1 =>
    if staleB c then
      if n = 0 then rest else cleanupPhase rest n
    else c :: cleanupPhase rest (n + 1)

/-- `broadcastUpdate` (`index.ts`) restricted to its observable effect:
the updated registry after send + cleanup, and the list of client ids the
message was delivered to.  The JSON message itself is serialized once
before the loop and is the same for every recipient, so it is not part of
the state. -/
def broadcastUpdate (subs : List Subscriber) : List Subscriber × List String :=
  (cleanupPhase (sendPhase subs).1 (sendPhase subs).2.2,
   (sendPhase subs).2.1)

theorem sendOne_eq (c : Subscriber) :
    sendOne c = (markFail c,
      if deliverB c then [c.clientId] else [],
      if staleB (markFail c) then 1 else 0) := by
  rcases c with ⟨cid, conn, setup, topen, fails⟩
  cases conn <;> cases setup <;> cases topen <;> cases fails <;>
    simp [sendOne, markFail, eligibleB, deliverB, staleB]

theorem sendPhase_eq (subs : List Subscriber) :
    sendPhase subs = (subs.map markFail,
      (subs.filter deliverB).map Subscriber.clientId,
      (subs.map markFail).countP staleB) := by
  induction subs with
  | nil => rfl
  | cons c rest ih =>
    rw [sendPhase, ih, sendOne_eq]
    by_cases hd : deliverB c = true
    · by_cases hs : staleB (markFail c) = true
      · simp [hd, hs, List.countP_cons, Nat.add_comm]
      · simp [hd, hs, List.countP_cons]
    · by_cases hs : staleB (markFail c) = true
      · simp [hd, hs, List.countP_cons, Nat.add_comm]
      · simp [hd, hs, List.countP_cons]

theorem countP_filter_length (l : List Subscriber) :
    l.countP staleB = (l.filter staleB).length := by
  rw [List.countP_eq_length_filter]

theorem cleanupPhase_exact (l : List Subscriber) :
    cleanupPhase l (l.countP staleB) = l.filter (fun c => !(staleB c)) := by
  induction l with
  | nil => rfl
  | cons c rest ih =>
    by_cases hc : staleB c = true
    · rw [List.countP_cons_of_pos _ _ hc]
      rw [cleanupPhase]
      rw [if_pos hc]
      by_cases hz : rest.countP staleB = 0
      · rw [hz]
        simp only [if_pos rfl]
        have hnone : ∀ x ∈ rest, ¬ staleB x = true := by
          intro x hx
          by_contra hres
          have := List.countP_pos_iff.mpr ⟨x, hx, hres⟩
          omega
        have hfilter : rest.filter (fun c => !(staleB c)) = rest :=
          List.filter_eq_self.mpr (by
            intro x hx
            simp [hnone x hx])
        simp [hc, hfilter]
      · rw [if_neg hz]
        simp [hc, ih]
    · rw [List.countP_cons_of_neg _ _ (by simpa using hc)]
      have hb : staleB c = false := by simpa using hc
      cases hcount : rest.countP staleB with
      | zero =>
        rw [cleanupPhase]
        have hnone : ∀ x ∈ rest, ¬ staleB x = true := by
          intro x hx
          by_contra hres
          have := List.countP_pos_iff.mpr ⟨x, hx, hres⟩
          omega
        have hfilter : rest.filter (fun c => !(staleB c)) = rest :=
          List.filter_eq_self.mpr (by
            intro x hx
            simp [hnone x hx])
        simp [hb, hfilter]
      | succ n =>
        rw [cleanupPhase]
        rw [if_neg (by simp [hb])]
        rw [← hcount, ih]
        simp [hb]

/-- C9: `broadcastUpdate` delivers to exactly the connections that are
`connected`, setup-complete, and open whose send does not throw — one
throwing recipient never affects delivery to the others —, a send failure
marks only that connection `connected = false`, and the post-broadcast
sweep removes exactly the entries that are setup-complete and no longer
connected or open. -/
theorem broadcastUpdate_spec (subs : List Subscriber) :
    (broadcastUpdate subs).2
      = (subs.filter deliverB).map Subscriber.clientId
    ∧ (broadcastUpdate subs).1
      = (subs.map markFail).filter (fun c => !(staleB c)) := by
  unfold broadcastUpdate
  rw [sendPhase_eq]
  exact ⟨rfl, cleanupPhase_exact (subs.map markFail)⟩
